import Mathlib

/-!
Pulsar: the aubio wrapper (`src/native/aubio-wrapper/aubio_wrapper.c`).

A shallow embedding of the exported wrapper functions and of the convenience
functions `wrapper_create_tempo_tracker`, `wrapper_process_tempo`,
`wrapper_create_onset_detector` and `wrapper_process_onset`.

* C `unsigned int` is `uint = Fin 2^32`; its `+` wraps exactly as in C.
* C `float` is `F32`, an IEEE-754 binary32 bit pattern split into its fields.
* A pointer is `Option _` with `none` for `NULL`.
* `fvec_t` buffers live in an explicit heap (`World.live`); every allocation
  asks `World.oracle` whether it succeeds; `World.trace` is a ghost log of the
  observable steps (allocations, releases, sample reads, library process
  calls, writes through `out_bpm`).
* A step whose behaviour C leaves undefined (access through `NULL` or a
  released buffer, index out of range) yields `none`.
* The wrapped library is a black box: the structure `Aubio`.
-/

namespace Pulsar

/-! ## Scalars -/

/-- C `unsigned int` (32 bits); addition on `Fin` wraps modulo `2^32`. -/
abbrev uint := Fin 4294967296

/-- C `float`: an IEEE-754 binary32 value given by its sign bit, its biased
exponent and its fraction field. -/
structure F32 where
  sign : Bool
  exponent : Fin 256
  mantissa : Fin 8388608
  deriving DecidableEq, Repr

namespace F32

/-- The value `+0.0f`, which `calloc`-ed storage holds. -/
def zero : F32 := ⟨false, 0, 0⟩

/-- The value `-1.0f` (bit pattern `0xBF800000`). -/
def negOne : F32 := ⟨true, 127, 0⟩

/-- The value `1.0f` (bit pattern `0x3F800000`). -/
def one : F32 := ⟨false, 127, 0⟩

/-- Not-a-number: all exponent bits set and a non-zero fraction. -/
def isNaN (x : F32) : Bool := x.exponent == 255 && x.mantissa != 0

/-- Either of the two zeros `+0.0f`, `-0.0f`. -/
def isZero (x : F32) : Bool := x.exponent == 0 && x.mantissa == 0

/-- The C comparison `x > 0.0f`: false on NaN and on both zeros, otherwise
decided by the sign bit. -/
def gtZero (x : F32) : Bool := !x.isNaN && !x.isZero && !x.sign

/-- The C comparison `x != 0.0f`: true on NaN, false exactly on the zeros. -/
def neZero (x : F32) : Bool := !x.isZero

end F32

/-! ## Sample buffers and the heap -/

/-- Addresses of heap objects. -/
abbrev Addr := Nat

/-- A possibly-null pointer to a heap object. -/
abbrev Ptr := Option Addr

/-- Modelled from the spec: the wrapped library's `fvec_t` (its header is not
part of the sources), "fixed-capacity ordered sequence of 32-bit
floating-point samples, length fixed at construction, mutable in place". -/
structure fvec_t where
  length : uint
  data : List F32
  deriving DecidableEq, Repr

/-- Observable steps, logged in the order they happen. -/
inductive Event where
  | alloc (length : uint) (result : Ptr)
  | free (a : Addr)
  | read (i : Nat)
  | process (input output : Addr) (inBuf outBuf : fvec_t)
  | write_bpm (v : F32)
  deriving DecidableEq, Repr

/-- The part of the machine state the wrapper touches. -/
structure World where
  /-- live buffers, most recently allocated first -/
  live : List (Addr × fvec_t)
  /-- the address the next successful allocation returns -/
  next : Addr
  /-- outcomes of the coming allocation requests (`true`: memory is granted);
  when the list is used up memory is exhausted -/
  oracle : List Bool
  /-- ghost log of observable steps -/
  trace : List Event
  deriving DecidableEq, Repr

/-- The buffer stored at address `a`, if it is live. -/
def heap_get (a : Addr) : List (Addr × fvec_t) → Option fvec_t
  | [] => none
  | (k, v) :: rest => if k = a then some v else heap_get a rest

/-- Overwrite the buffer stored at the live address `a`. -/
def heap_set (a : Addr) (b : fvec_t) : List (Addr × fvec_t) → Option (List (Addr × fvec_t))
  | [] => none
  | (k, v) :: rest =>
    if k = a then some ((k, b) :: rest)
    else (heap_set a b rest).map (fun r => (k, v) :: r)

/-- Remove the live address `a`. -/
def heap_del (a : Addr) : List (Addr × fvec_t) → Option (List (Addr × fvec_t))
  | [] => none
  | (k, v) :: rest =>
    if k = a then some rest
    else (heap_del a rest).map (fun r => (k, v) :: r)

/-- Append one event to the ghost log. -/
def World.log (w : World) (e : Event) : World :=
  { w with trace := w.trace ++ [e] }

/-- Whether the coming allocation request is granted. -/
def granted (oracle : List Bool) : Bool :=
  match oracle with
  | true :: _ => true
  | _ => false

/-- Modelled from the spec: the wrapped library's `new_fvec`, "allocates a
zeroed buffer of `length` samples, returns an opaque handle or a null result
on allocation failure". -/
def new_fvec (length : uint) (w : World) : Ptr × World :=
  if granted w.oracle then
    (some w.next,
     { live := (w.next, ⟨length, List.replicate length.val F32.zero⟩) :: w.live
       next := w.next + 1
       oracle := w.oracle.tail
       trace := w.trace ++ [Event.alloc length (some w.next)] })
  else
    (none, { w with oracle := w.oracle.tail, trace := w.trace ++ [Event.alloc length none] })

/-- Modelled from the spec: the wrapped library's `del_fvec`, "releases it;
calling destroy twice or using a handle after destroy is undefined
behavior". -/
def del_fvec (s : Ptr) (w : World) : Option World :=
  match s with
  | none => none
  | some a =>
    match heap_del a w.live with
    | none => none
    | some l => some { w with live := l, trace := w.trace ++ [Event.free a] }

/-- Modelled from the spec: the wrapped library's `fvec_get_sample`, "access
one sample with no bounds checking — out-of-range index is undefined
behavior". -/
def fvec_get_sample (s : Ptr) (position : uint) (w : World) : Option F32 :=
  match s with
  | none => none
  | some a =>
    match heap_get a w.live with
    | none => none
    | some b => b.data[position.val]?

/-- Modelled from the spec: the wrapped library's `fvec_set_sample`, the
store counterpart of `fvec_get_sample`. -/
def fvec_set_sample (s : Ptr) (data : F32) (position : uint) (w : World) : Option World :=
  match s with
  | none => none
  | some a =>
    match heap_get a w.live with
    | none => none
    | some b =>
      if position.val < b.data.length then
        match heap_set a { b with data := b.data.set position.val data } w.live with
        | none => none
        | some l => some { w with live := l }
      else none

/-! ## `fvec_t` functions (lines 20-46) -/

def wrapper_new_fvec (length : uint) (w : World) : Ptr × World :=
  new_fvec length w

def wrapper_del_fvec (s : Ptr) (w : World) : Option World :=
  del_fvec s w

def wrapper_fvec_get_sample (s : Ptr) (position : uint) (w : World) : Option F32 :=
  fvec_get_sample s position w

def wrapper_fvec_set_sample (s : Ptr) (data : F32) (position : uint) (w : World) :
    Option World :=
  fvec_set_sample s data position w

def wrapper_fvec_get_length (s : Ptr) (w : World) : Option uint :=
  match s with
  | none => none
  | some a => (heap_get a w.live).map (fun b => b.length)

/-! ## The wrapped library -/

/-- Modelled from the spec: the wrapped beat-tracking and onset-detection
library, "an external dependency treated as a black box". `Tempo` and `Onset`
are the internal states of a tracker and of a detector; `tempo_do` and
`onset_do` take the state, the input buffer and the output buffer and give the
new state and the new content of the output buffer, which they write in place
(`tempo_do_shape`, `onset_do_shape`: the storage keeps its size). -/
structure Aubio where
  Tempo : Type
  Onset : Type
  new_tempo : Option String → uint → uint → uint → Option Tempo
  tempo_do : Tempo → fvec_t → fvec_t → Tempo × fvec_t
  tempo_get_bpm : Tempo → F32
  new_onset : Option String → uint → uint → uint → Option Onset
  onset_do : Onset → fvec_t → fvec_t → Onset × fvec_t
  tempo_do_shape : ∀ t i o, (tempo_do t i o).2.data.length = o.data.length
  onset_do_shape : ∀ t i o, (onset_do t i o).2.data.length = o.data.length

/-- The library call `new_aubio_tempo`; `NULL` (`none`) when the library
rejects the configuration. -/
def new_aubio_tempo (L : Aubio) (method : Option String) (buf_size hop_size samplerate : uint) :
    Option L.Tempo :=
  L.new_tempo method buf_size hop_size samplerate

/-- The library call `new_aubio_onset`. -/
def new_aubio_onset (L : Aubio) (method : Option String) (buf_size hop_size samplerate : uint) :
    Option L.Onset :=
  L.new_onset method buf_size hop_size samplerate

/-- The library call `aubio_tempo_get_bpm`. -/
def aubio_tempo_get_bpm (L : Aubio) (o : L.Tempo) : F32 :=
  L.tempo_get_bpm o

/-- The library call `aubio_tempo_do` on buffers that live in the heap: it
reads both buffers, runs the tracker and stores the new output content. -/
def aubio_tempo_do (L : Aubio) (o : L.Tempo) (input tempo : Ptr) (w : World) :
    Option (L.Tempo × World) :=
  match input, tempo with
  | some i, some t =>
    match heap_get i w.live, heap_get t w.live with
    | some ib, some ob =>
      match heap_set t (L.tempo_do o ib ob).2 w.live with
      | none => none
      | some l =>
        some ((L.tempo_do o ib ob).1,
              { w with live := l, trace := w.trace ++ [Event.process i t ib ob] })
    | _, _ => none
  | _, _ => none

/-- The library call `aubio_onset_do` on buffers that live in the heap. -/
def aubio_onset_do (L : Aubio) (o : L.Onset) (input onset : Ptr) (w : World) :
    Option (L.Onset × World) :=
  match input, onset with
  | some i, some t =>
    match heap_get i w.live, heap_get t w.live with
    | some ib, some ob =>
      match heap_set t (L.onset_do o ib ob).2 w.live with
      | none => none
      | some l =>
        some ((L.onset_do o ib ob).1,
              { w with live := l, trace := w.trace ++ [Event.process i t ib ob] })
    | _, _ => none
  | _, _ => none

/-! ## Low-level constructors (lines 52-55, 113-116) -/

def wrapper_new_aubio_tempo (L : Aubio) (method : Option String)
    (buf_size hop_size samplerate : uint) : Option L.Tempo :=
  new_aubio_tempo L method buf_size hop_size samplerate

def wrapper_new_aubio_onset (L : Aubio) (method : Option String)
    (buf_size hop_size samplerate : uint) : Option L.Onset :=
  new_aubio_onset L method buf_size hop_size samplerate

/-! ## Convenience functions (lines 178-277) -/

/-- Lines 182-185. -/
def wrapper_create_tempo_tracker (L : Aubio) (samplerate : uint) : Option L.Tempo :=
  new_aubio_tempo L (some "default") 1024 512 samplerate

/-- Lines 236-240. -/
def wrapper_create_onset_detector (L : Aubio) (method : Option String) (samplerate : uint) :
    Option L.Onset :=
  let method := match method with
    | none => some "default"
    | some m => some m
  new_aubio_onset L method 1024 512 samplerate

/-- The copy loop of lines 208-210 and 262-264, entered with counter `i`:
`for (; i < num_samples; i++) fvec_set_sample(input, samples[i], i);`. -/
def copy_samples (samples : Nat → F32) (num_samples : uint) (input : Ptr) (i : uint)
    (w : World) : Option World :=
  if i < num_samples then
    match fvec_set_sample input (samples i.val) i (w.log (Event.read i.val)) with
    | none => none
    | some w1 => copy_samples samples num_samples input (i + 1) w1
  else some w
termination_by num_samples.val - i.val
decreasing_by
  rename_i h
  have h1 : i.val < num_samples.val := h
  have h3 : (i + 1).val = i.val + 1 := by
    rw [Fin.val_add]
    simp only [Fin.val_one]
    exact Nat.mod_eq_of_lt (by omega)
  omega

/-- What a call of `wrapper_process_tempo` leaves behind. -/
structure TempoResult (T : Type) where
  /-- the returned `int` -/
  ret : Int
  /-- the tracker behind `tempo` after the call -/
  tempo : Option T
  /-- the `float` behind `out_bpm` after the call (`none` for `NULL`) -/
  bpm : Option F32
  world : World

/-- Lines 191-228. `samples` is the caller's array seen as a map from index to
value; `out_bpm` is `none` for `NULL` and otherwise holds the current content
of the destination. -/
def wrapper_process_tempo (L : Aubio) (tempo : Option L.Tempo) (samples : Option (Nat → F32))
    (num_samples : uint) (out_bpm : Option F32) (w : World) : Option (TempoResult L.Tempo) :=
  match tempo, samples with
  | some t, some s =>
    if num_samples = 0 then some ⟨0, tempo, out_bpm, w⟩
    else
      let r1 := new_fvec num_samples w
      let r2 := new_fvec 1 r1.2
      let input := r1.1
      let output := r2.1
      if input.isNone || output.isNone then
        (if input.isSome then del_fvec input r2.2 else some r2.2).bind fun w3 =>
        (if output.isSome then del_fvec output w3 else some w3).bind fun w4 =>
        some ⟨0, tempo, out_bpm, w4⟩
      else
        (copy_samples s num_samples input 0 r2.2).bind fun w3 =>
        (aubio_tempo_do L t input output w3).bind fun p =>
        (fvec_get_sample output 0 p.2).bind fun x =>
        let beat_detected : Int := if x.gtZero then 1 else 0
        let q : Option F32 × World :=
          match out_bpm with
          | some _ =>
            (some (aubio_tempo_get_bpm L p.1),
             p.2.log (Event.write_bpm (aubio_tempo_get_bpm L p.1)))
          | none => (none, p.2)
        (del_fvec input q.2).bind fun w6 =>
        (del_fvec output w6).bind fun w7 =>
        some ⟨beat_detected, some p.1, q.1, w7⟩
  | _, _ => some ⟨0, tempo, out_bpm, w⟩

/-- What a call of `wrapper_process_onset` leaves behind. -/
structure OnsetResult (T : Type) where
  /-- the returned `int` -/
  ret : Int
  /-- the detector behind `onset` after the call -/
  onset : Option T
  world : World

/-- Lines 245-277. -/
def wrapper_process_onset (L : Aubio) (onset : Option L.Onset) (samples : Option (Nat → F32))
    (num_samples : uint) (w : World) : Option (OnsetResult L.Onset) :=
  match onset, samples with
  | some t, some s =>
    if num_samples = 0 then some ⟨0, onset, w⟩
    else
      let r1 := new_fvec num_samples w
      let r2 := new_fvec 1 r1.2
      let input := r1.1
      let output := r2.1
      if input.isNone || output.isNone then
        (if input.isSome then del_fvec input r2.2 else some r2.2).bind fun w3 =>
        (if output.isSome then del_fvec output w3 else some w3).bind fun w4 =>
        some ⟨0, onset, w4⟩
      else
        (copy_samples s num_samples input 0 r2.2).bind fun w3 =>
        (aubio_onset_do L t input output w3).bind fun p =>
        (fvec_get_sample output 0 p.2).bind fun x =>
        let onset_detected : Int := if x.gtZero then 1 else 0
        (del_fvec input p.2).bind fun w6 =>
        (del_fvec output w6).bind fun w7 =>
        some ⟨onset_detected, some p.1, w7⟩
  | _, _ => some ⟨0, onset, w⟩

/-! ## A concrete library, for evaluating the wrappers -/

/-- The method names the doc comment of `wrapper_create_onset_detector`
lists. -/
def knownMethods : List String :=
  ["energy", "hfc", "complex", "phase", "wphase", "specdiff", "kl", "mkl", "specflux",
   "default"]

/-- A library instance that accepts exactly the documented method names,
counts the hops it has processed, and reports in the output vector the first
sample of the hop it was given. -/
def echoLib : Aubio where
  Tempo := Nat
  Onset := Nat
  new_tempo := fun m _ _ _ =>
    match m with
    | some name => if name ∈ knownMethods then some 0 else none
    | none => none
  tempo_do := fun t i o => (t + 1, { o with data := o.data.set 0 (i.data.headD F32.zero) })
  tempo_get_bpm := fun t => ⟨false, 127, Fin.ofNat t⟩
  new_onset := fun m _ _ _ =>
    match m with
    | some name => if name ∈ knownMethods then some 0 else none
    | none => none
  onset_do := fun t i o => (t + 1, { o with data := o.data.set 0 (i.data.headD F32.zero) })
  tempo_do_shape := by intro t i o; simp
  onset_do_shape := by intro t i o; simp

/-- A world with no live buffer in which every allocation listed succeeds or
fails as `outcomes` says. -/
def emptyWorld (outcomes : List Bool) : World :=
  { live := [], next := 1, oracle := outcomes, trace := [] }

/-! ## Vocabulary for the statements -/

/-- The input vector a valid call builds: `num_samples` cells holding the
caller's samples in order. -/
def input_buffer (samples : Nat → F32) (num_samples : uint) : fvec_t :=
  ⟨num_samples, (List.range num_samples.val).map samples⟩

/-- The output vector a valid call builds: `new_fvec(1)`, one zeroed cell. -/
def output_buffer : fvec_t := ⟨1, [F32.zero]⟩

/-- Cell 0 of a vector. -/
def out_sample (b : fvec_t) : F32 := b.data.headD F32.zero

/-- The address a successful allocation step returned. -/
def Event.allocAddr : Event → Option Addr
  | Event.alloc _ (some a) => some a
  | _ => none

/-- The address a release step released. -/
def Event.freeAddr : Event → Option Addr
  | Event.free a => some a
  | _ => none

/-- A library process call, kept as it is. -/
def Event.processCall : Event → Option Event
  | Event.process i o ib ob => some (Event.process i o ib ob)
  | _ => none

/-- The index a sample read step read. -/
def Event.readIndex : Event → Option Nat
  | Event.read i => some i
  | _ => none

/-- The value a step wrote through `out_bpm`. -/
def Event.bpmValue : Event → Option F32
  | Event.write_bpm v => some v
  | _ => none

/-- The addresses the successful allocations of a log returned, in order. -/
def allocated (es : List Event) : List Addr := es.filterMap Event.allocAddr

/-- The addresses a log released, in order. -/
def freed (es : List Event) : List Addr := es.filterMap Event.freeAddr

/-- The library process calls of a log, in order. -/
def process_calls (es : List Event) : List Event := es.filterMap Event.processCall

/-- The sample indices a log read, in order. -/
def reads (es : List Event) : List Nat := es.filterMap Event.readIndex

/-- The values a log wrote through `out_bpm`, in order. -/
def bpm_writes (es : List Event) : List F32 := es.filterMap Event.bpmValue

/-- The steps of a valid call of `wrapper_process_tempo` that starts with
`next` as the first free address. -/
def tempo_events (L : Aubio) (t : L.Tempo) (s : Nat → F32) (n : uint) (out_bpm : Option F32)
    (next : Addr) : List Event :=
  [Event.alloc n (some next), Event.alloc 1 (some (next + 1))] ++
  (List.range n.val).map Event.read ++
  [Event.process next (next + 1) (input_buffer s n) output_buffer] ++
  (match out_bpm with
   | some _ =>
     [Event.write_bpm (L.tempo_get_bpm (L.tempo_do t (input_buffer s n) output_buffer).1)]
   | none => []) ++
  [Event.free next, Event.free (next + 1)]

/-- The steps of a valid call of `wrapper_process_onset`. -/
def onset_events (s : Nat → F32) (n : uint) (next : Addr) : List Event :=
  [Event.alloc n (some next), Event.alloc 1 (some (next + 1))] ++
  (List.range n.val).map Event.read ++
  [Event.process next (next + 1) (input_buffer s n) output_buffer] ++
  [Event.free next, Event.free (next + 1)]

/-- The steps of a call in which at least one allocation failed; `ok1` and
`ok2` say whether the first and the second allocation succeeded. -/
def fail_events (n : uint) (ok1 ok2 : Bool) (next : Addr) : List Event :=
  match ok1, ok2 with
  | true, _ => [Event.alloc n (some next), Event.alloc 1 none, Event.free next]
  | false, true => [Event.alloc n none, Event.alloc 1 (some next), Event.free next]
  | false, false => [Event.alloc n none, Event.alloc 1 none]

/-! ## Auxiliary facts -/

theorem uint_succ_val (i n : uint) (h : i < n) : (i + 1).val = i.val + 1 := by
  have h1 : i.val < n.val := h
  have h2 : n.val < 4294967296 := n.isLt
  rw [Fin.val_add]
  simp only [Fin.val_one]
  exact Nat.mod_eq_of_lt (by omega)

theorem take_succ_set (l : List F32) (i : Nat) (x : F32) (h : i < l.length) :
    (l.set i x).take (i + 1) = l.take i ++ [x] := by
  induction l generalizing i with
  | nil => simp at h
  | cons y ys ih =>
    cases i with
    | zero => simp
    | succ j =>
      simp only [List.length_cons, Nat.add_lt_add_iff_right] at h
      simp [ih j h]

/-- The copy loop entered at counter `i` on a live input buffer of
`num_samples` cells stores `samples[i..num_samples)` at their own indices,
reads exactly those samples, and changes nothing else. -/
theorem copy_samples_spec (s : Nat → F32) (n : uint) (a k : Addr) (hk : k ≠ a) (ob : fvec_t)
    (l : List (Addr × fvec_t)) (nx : Addr) (orc : List Bool) :
    ∀ (d : Nat) (i : uint) (ib : fvec_t) (tr : List Event),
      n.val - i.val = d → i ≤ n → ib.data.length = n.val →
      copy_samples s n (some a) i ⟨(k, ob) :: (a, ib) :: l, nx, orc, tr⟩ =
        some ⟨(k, ob) ::
                (a, { ib with data := ib.data.take i.val ++
                        (List.range' i.val (n.val - i.val)).map s }) :: l,
              nx, orc, tr ++ (List.range' i.val (n.val - i.val)).map Event.read⟩ := by
  intro d
  induction d with
  | zero =>
    intro i ib tr hd hi hlen
    have hi2 : i.val ≤ n.val := hi
    have hin : ¬ i < n := by
      intro h
      have : i.val < n.val := h
      omega
    rw [copy_samples, if_neg hin]
    have h0 : n.val - i.val = 0 := hd
    have h1 : ib.data.length ≤ i.val := by omega
    simp [h0, List.take_of_length_le h1]
  | succ d ih =>
    intro i ib tr hd hi hlen
    have hin : i < n := by
      show i.val < n.val
      omega
    have hin2 : i.val < n.val := hin
    have hs := uint_succ_val i n hin
    rw [copy_samples, if_pos hin]
    have hset : fvec_set_sample (some a) (s i.val) i
        (World.log ⟨(k, ob) :: (a, ib) :: l, nx, orc, tr⟩ (Event.read i.val)) =
        some ⟨(k, ob) :: (a, { ib with data := ib.data.set i.val (s i.val) }) :: l,
              nx, orc, tr ++ [Event.read i.val]⟩ := by
      have hlt : i.val < ib.data.length := by omega
      simp [fvec_set_sample, World.log, heap_get, heap_set, hk, hlt]
    rw [hset]
    simp only []
    have hle : i + 1 ≤ n := by
      show (i + 1).val ≤ n.val
      omega
    rw [ih (i + 1) { ib with data := ib.data.set i.val (s i.val) } (tr ++ [Event.read i.val])
      (by omega) hle (by simpa using hlen)]
    have hr : n.val - i.val = (n.val - (i + 1).val) + 1 := by omega
    have hlt : i.val < ib.data.length := by omega
    rw [hr]
    simp [List.range'_succ, take_succ_set _ _ _ hlt, hs]

theorem out_shape (b : fvec_t) (h : b.data.length = 1) : b.data = [out_sample b] := by
  obtain ⟨x, hx⟩ := List.length_eq_one.mp h
  simp [out_sample, hx]

/-- Closed form of a valid call of `wrapper_process_tempo`. -/
theorem process_tempo_valid (L : Aubio) (t : L.Tempo) (s : Nat → F32) (n : uint)
    (out_bpm : Option F32) (w : World) (hn : n ≠ 0)
    (h1 : granted w.oracle = true) (h2 : granted w.oracle.tail = true) :
    wrapper_process_tempo L (some t) (some s) n out_bpm w =
      some ⟨if (out_sample (L.tempo_do t (input_buffer s n) output_buffer).2).gtZero
              then 1 else 0,
            some (L.tempo_do t (input_buffer s n) output_buffer).1,
            out_bpm.map fun _ =>
              L.tempo_get_bpm (L.tempo_do t (input_buffer s n) output_buffer).1,
            ⟨w.live, w.next + 2, w.oracle.tail.tail,
             w.trace ++ tempo_events L t s n out_bpm w.next⟩⟩ := by
  have hc : copy_samples s n (some w.next) 0
      ⟨(w.next + 1, ⟨1, List.replicate (1 : uint).val F32.zero⟩) ::
         (w.next, ⟨n, List.replicate n.val F32.zero⟩) :: w.live,
       w.next + 1 + 1, w.oracle.tail.tail,
       w.trace ++ [Event.alloc n (some w.next)] ++ [Event.alloc 1 (some (w.next + 1))]⟩ =
      some ⟨(w.next + 1, output_buffer) :: (w.next, input_buffer s n) :: w.live,
            w.next + 1 + 1, w.oracle.tail.tail,
            w.trace ++ [Event.alloc n (some w.next)] ++ [Event.alloc 1 (some (w.next + 1))] ++
              (List.range n.val).map Event.read⟩ := by
    rw [copy_samples_spec s n w.next (w.next + 1) (Nat.succ_ne_self _) _ w.live
      (w.next + 1 + 1) w.oracle.tail.tail n.val 0 ⟨n, List.replicate n.val F32.zero⟩ _
      (by simp) (Fin.zero_le n) (by simp)]
    simp [input_buffer, output_buffer, List.range_eq_range']
  have hsh := out_shape _ (L.tempo_do_shape t (input_buffer s n) output_buffer)
  have hne : ¬ (w.next + 1 = w.next) := Nat.succ_ne_self _
  simp only [wrapper_process_tempo, new_fvec, h1, h2, hn, if_true, if_false]
  simp only [Option.isNone_some, Bool.or_self, Bool.false_eq_true, if_false, hc,
    Option.some_bind]
  cases out_bpm <;>
    simp [aubio_tempo_do, heap_get, heap_set, hne, fvec_get_sample, hsh, del_fvec, heap_del,
      World.log, tempo_events, aubio_tempo_get_bpm]

/-- Closed form of a call of `wrapper_process_tempo` with valid arguments in
which an allocation fails. -/
theorem process_tempo_fail (L : Aubio) (t : L.Tempo) (s : Nat → F32) (n : uint)
    (out_bpm : Option F32) (w : World) (hn : n ≠ 0)
    (h : ¬ (granted w.oracle = true ∧ granted w.oracle.tail = true)) :
    wrapper_process_tempo L (some t) (some s) n out_bpm w =
      some ⟨0, some t, out_bpm,
            ⟨w.live,
             if granted w.oracle = true ∨ granted w.oracle.tail = true
               then w.next + 1 else w.next,
             w.oracle.tail.tail,
             w.trace ++ fail_events n ((granted w.oracle))
               ((granted w.oracle.tail)) w.next⟩⟩ := by
  by_cases h1 : granted w.oracle = true
  · have h2 : ¬ granted w.oracle.tail = true := fun h2 => h ⟨h1, h2⟩
    simp [wrapper_process_tempo, new_fvec, h1, h2, hn, del_fvec, heap_del, fail_events]
  · by_cases h2 : granted w.oracle.tail = true
    · simp [wrapper_process_tempo, new_fvec, h1, h2, hn, del_fvec, heap_del, fail_events]
    · simp [wrapper_process_tempo, new_fvec, h1, h2, hn, fail_events]

/-- Closed form of a call of `wrapper_process_tempo` with an invalid
argument. -/
theorem process_tempo_invalid (L : Aubio) (tempo : Option L.Tempo)
    (samples : Option (Nat → F32)) (n : uint) (out_bpm : Option F32) (w : World)
    (h : tempo = none ∨ samples = none ∨ n = 0) :
    wrapper_process_tempo L tempo samples n out_bpm w = some ⟨0, tempo, out_bpm, w⟩ := by
  cases tempo <;> cases samples <;> simp_all [wrapper_process_tempo]

/-- Closed form of a valid call of `wrapper_process_onset`. -/
theorem process_onset_valid (L : Aubio) (t : L.Onset) (s : Nat → F32) (n : uint)
    (w : World) (hn : n ≠ 0)
    (h1 : granted w.oracle = true) (h2 : granted w.oracle.tail = true) :
    wrapper_process_onset L (some t) (some s) n w =
      some ⟨if (out_sample (L.onset_do t (input_buffer s n) output_buffer).2).gtZero
              then 1 else 0,
            some (L.onset_do t (input_buffer s n) output_buffer).1,
            ⟨w.live, w.next + 2, w.oracle.tail.tail,
             w.trace ++ onset_events s n w.next⟩⟩ := by
  have hc : copy_samples s n (some w.next) 0
      ⟨(w.next + 1, ⟨1, List.replicate (1 : uint).val F32.zero⟩) ::
         (w.next, ⟨n, List.replicate n.val F32.zero⟩) :: w.live,
       w.next + 1 + 1, w.oracle.tail.tail,
       w.trace ++ [Event.alloc n (some w.next)] ++ [Event.alloc 1 (some (w.next + 1))]⟩ =
      some ⟨(w.next + 1, output_buffer) :: (w.next, input_buffer s n) :: w.live,
            w.next + 1 + 1, w.oracle.tail.tail,
            w.trace ++ [Event.alloc n (some w.next)] ++ [Event.alloc 1 (some (w.next + 1))] ++
              (List.range n.val).map Event.read⟩ := by
    rw [copy_samples_spec s n w.next (w.next + 1) (Nat.succ_ne_self _) _ w.live
      (w.next + 1 + 1) w.oracle.tail.tail n.val 0 ⟨n, List.replicate n.val F32.zero⟩ _
      (by simp) (Fin.zero_le n) (by simp)]
    simp [input_buffer, output_buffer, List.range_eq_range']
  have hsh := out_shape _ (L.onset_do_shape t (input_buffer s n) output_buffer)
  have hne : ¬ (w.next + 1 = w.next) := Nat.succ_ne_self _
  simp only [wrapper_process_onset, new_fvec, h1, h2, hn, if_true, if_false]
  simp only [Option.isNone_some, Bool.or_self, Bool.false_eq_true, if_false, hc,
    Option.some_bind]
  simp [aubio_onset_do, heap_get, heap_set, hne, fvec_get_sample, hsh, del_fvec, heap_del,
    onset_events]

/-- Closed form of a call of `wrapper_process_onset` with valid arguments in
which an allocation fails. -/
theorem process_onset_fail (L : Aubio) (t : L.Onset) (s : Nat → F32) (n : uint)
    (w : World) (hn : n ≠ 0)
    (h : ¬ (granted w.oracle = true ∧ granted w.oracle.tail = true)) :
    wrapper_process_onset L (some t) (some s) n w =
      some ⟨0, some t,
            ⟨w.live,
             if granted w.oracle = true ∨ granted w.oracle.tail = true
               then w.next + 1 else w.next,
             w.oracle.tail.tail,
             w.trace ++ fail_events n ((granted w.oracle))
               ((granted w.oracle.tail)) w.next⟩⟩ := by
  by_cases h1 : granted w.oracle = true
  · have h2 : ¬ granted w.oracle.tail = true := fun h2 => h ⟨h1, h2⟩
    simp [wrapper_process_onset, new_fvec, h1, h2, hn, del_fvec, heap_del, fail_events]
  · by_cases h2 : granted w.oracle.tail = true
    · simp [wrapper_process_onset, new_fvec, h1, h2, hn, del_fvec, heap_del, fail_events]
    · simp [wrapper_process_onset, new_fvec, h1, h2, hn, fail_events]

/-- Closed form of a call of `wrapper_process_onset` with an invalid
argument. -/
theorem process_onset_invalid (L : Aubio) (onset : Option L.Onset)
    (samples : Option (Nat → F32)) (n : uint) (w : World)
    (h : onset = none ∨ samples = none ∨ n = 0) :
    wrapper_process_onset L onset samples n w = some ⟨0, onset, w⟩ := by
  cases onset <;> cases samples <;> simp_all [wrapper_process_onset]

/-- The first allocation of a call succeeds exactly when the oracle grants
it. -/
theorem new_fvec_fst (n : uint) (w : World) :
    (new_fvec n w).1 ≠ none ↔ granted w.oracle = true := by
  by_cases h : granted w.oracle = true <;> simp [new_fvec, h]

/-- The second allocation of a call succeeds exactly when the oracle grants
it. -/
theorem new_fvec_snd (n m : uint) (w : World) :
    (new_fvec m (new_fvec n w).2).1 ≠ none ↔ granted w.oracle.tail = true := by
  by_cases h : granted w.oracle = true <;>
    by_cases h2 : granted w.oracle.tail = true <;> simp [new_fvec, h, h2]

theorem filterMap_reads_none {α : Type} (f : Event → Option α)
    (hf : ∀ i, f (Event.read i) = none) (l : List Nat) :
    (l.map Event.read).filterMap f = [] := by
  induction l with
  | nil => rfl
  | cons x xs ih => simp [List.filterMap_cons, hf, ih]

theorem reads_map_read (l : List Nat) : reads (l.map Event.read) = l := by
  induction l with
  | nil => rfl
  | cons x xs ih =>
    simp only [reads] at ih
    simp [reads, List.filterMap_cons, Event.readIndex, ih]

theorem heap_set_get (a : Addr) (b c : fvec_t) (l : List (Addr × fvec_t))
    (h : heap_get a l = some b) :
    ∃ l2, heap_set a c l = some l2 ∧ heap_get a l2 = some c := by
  induction l with
  | nil => simp [heap_get] at h
  | cons p ps ih =>
    obtain ⟨k, v⟩ := p
    by_cases hk : k = a
    · exact ⟨(k, c) :: ps, by simp [heap_set, hk], by simp [heap_get, hk]⟩
    · simp only [heap_get, hk, if_false] at h
      obtain ⟨l2, h1, h2⟩ := ih h
      exact ⟨(k, v) :: l2, by simp [heap_set, hk, h1], by simp [heap_get, hk, h2]⟩

/-- Every call of `wrapper_process_tempo` returns, restores the heap, and
takes one of three courses: no step at all, the steps of a failed allocation,
or the steps of a valid call. -/
theorem process_tempo_shape (L : Aubio) (tempo : Option L.Tempo)
    (samples : Option (Nat → F32)) (n : uint) (out_bpm : Option F32) (w : World) :
    ∃ r es, wrapper_process_tempo L tempo samples n out_bpm w = some r ∧
      r.world.live = w.live ∧ r.world.trace = w.trace ++ es ∧
      ((es = [] ∧ r.ret = 0) ∨
       (¬ (granted w.oracle = true ∧ granted w.oracle.tail = true) ∧
         es = fail_events n (granted w.oracle) (granted w.oracle.tail) w.next ∧ r.ret = 0) ∨
       (∃ t s, tempo = some t ∧ samples = some s ∧
         es = tempo_events L t s n out_bpm w.next ∧ (r.ret = 0 ∨ r.ret = 1))) := by
  by_cases hinv : tempo = none ∨ samples = none ∨ n = 0
  · exact ⟨_, [], process_tempo_invalid L tempo samples n out_bpm w hinv, rfl, by simp,
      Or.inl ⟨rfl, rfl⟩⟩
  · simp only [not_or] at hinv
    obtain ⟨ht, hs, hn⟩ := hinv
    obtain ⟨t, rfl⟩ := Option.ne_none_iff_exists'.mp ht
    obtain ⟨s, rfl⟩ := Option.ne_none_iff_exists'.mp hs
    by_cases hg : granted w.oracle = true ∧ granted w.oracle.tail = true
    · refine ⟨_, _, process_tempo_valid L t s n out_bpm w hn hg.1 hg.2, rfl, rfl,
        Or.inr (Or.inr ⟨t, s, rfl, rfl, rfl, ?_⟩)⟩
      by_cases hx : (out_sample (L.tempo_do t (input_buffer s n) output_buffer).2).gtZero = true
      · right; simp [hx]
      · left; simp [hx]
    · exact ⟨_, _, process_tempo_fail L t s n out_bpm w hn hg, rfl, rfl,
        Or.inr (Or.inl ⟨hg, rfl, rfl⟩)⟩

/-- Every call of `wrapper_process_onset` returns, restores the heap, and
takes one of three courses. -/
theorem process_onset_shape (L : Aubio) (onset : Option L.Onset)
    (samples : Option (Nat → F32)) (n : uint) (w : World) :
    ∃ r es, wrapper_process_onset L onset samples n w = some r ∧
      r.world.live = w.live ∧ r.world.trace = w.trace ++ es ∧
      ((es = [] ∧ r.ret = 0) ∨
       (¬ (granted w.oracle = true ∧ granted w.oracle.tail = true) ∧
         es = fail_events n (granted w.oracle) (granted w.oracle.tail) w.next ∧ r.ret = 0) ∨
       (∃ s, samples = some s ∧
         es = onset_events s n w.next ∧ (r.ret = 0 ∨ r.ret = 1))) := by
  by_cases hinv : onset = none ∨ samples = none ∨ n = 0
  · exact ⟨_, [], process_onset_invalid L onset samples n w hinv, rfl, by simp,
      Or.inl ⟨rfl, rfl⟩⟩
  · simp only [not_or] at hinv
    obtain ⟨ht, hs, hn⟩ := hinv
    obtain ⟨t, rfl⟩ := Option.ne_none_iff_exists'.mp ht
    obtain ⟨s, rfl⟩ := Option.ne_none_iff_exists'.mp hs
    by_cases hg : granted w.oracle = true ∧ granted w.oracle.tail = true
    · refine ⟨_, _, process_onset_valid L t s n w hn hg.1 hg.2, rfl, rfl,
        Or.inr (Or.inr ⟨s, rfl, rfl, ?_⟩)⟩
      by_cases hx : (out_sample (L.onset_do t (input_buffer s n) output_buffer).2).gtZero = true
      · right; simp [hx]
      · left; simp [hx]
    · exact ⟨_, _, process_onset_fail L t s n w hn hg, rfl, rfl,
        Or.inr (Or.inl ⟨hg, rfl, rfl⟩)⟩

theorem allocated_tempo_events (L : Aubio) (t : L.Tempo) (s : Nat → F32) (n : uint)
    (out_bpm : Option F32) (next : Addr) :
    allocated (tempo_events L t s n out_bpm next) = [next, next + 1] := by
  cases out_bpm <;>
    simp [allocated, tempo_events, List.filterMap_append, Event.allocAddr,
      filterMap_reads_none]

theorem freed_tempo_events (L : Aubio) (t : L.Tempo) (s : Nat → F32) (n : uint)
    (out_bpm : Option F32) (next : Addr) :
    freed (tempo_events L t s n out_bpm next) = [next, next + 1] := by
  cases out_bpm <;>
    simp [freed, tempo_events, List.filterMap_append, Event.freeAddr,
      filterMap_reads_none]

theorem process_calls_tempo_events (L : Aubio) (t : L.Tempo) (s : Nat → F32) (n : uint)
    (out_bpm : Option F32) (next : Addr) :
    process_calls (tempo_events L t s n out_bpm next) =
      [Event.process next (next + 1) (input_buffer s n) output_buffer] := by
  cases out_bpm <;>
    simp [process_calls, tempo_events, List.filterMap_append, Event.processCall,
      filterMap_reads_none]

theorem reads_tempo_events (L : Aubio) (t : L.Tempo) (s : Nat → F32) (n : uint)
    (out_bpm : Option F32) (next : Addr) :
    reads (tempo_events L t s n out_bpm next) = List.range n.val := by
  have h := reads_map_read (List.range n.val)
  simp only [reads] at h
  cases out_bpm <;>
    simp [reads, tempo_events, List.filterMap_append, Event.readIndex, h]

theorem bpm_writes_tempo_events (L : Aubio) (t : L.Tempo) (s : Nat → F32) (n : uint)
    (out_bpm : Option F32) (next : Addr) :
    bpm_writes (tempo_events L t s n out_bpm next) =
      match out_bpm with
      | some _ => [L.tempo_get_bpm (L.tempo_do t (input_buffer s n) output_buffer).1]
      | none => [] := by
  cases out_bpm <;>
    simp [bpm_writes, tempo_events, List.filterMap_append, Event.bpmValue,
      filterMap_reads_none]

theorem allocated_onset_events (s : Nat → F32) (n : uint) (next : Addr) :
    allocated (onset_events s n next) = [next, next + 1] := by
  simp [allocated, onset_events, List.filterMap_append, Event.allocAddr,
    filterMap_reads_none]

theorem freed_onset_events (s : Nat → F32) (n : uint) (next : Addr) :
    freed (onset_events s n next) = [next, next + 1] := by
  simp [freed, onset_events, List.filterMap_append, Event.freeAddr, filterMap_reads_none]

theorem process_calls_onset_events (s : Nat → F32) (n : uint) (next : Addr) :
    process_calls (onset_events s n next) =
      [Event.process next (next + 1) (input_buffer s n) output_buffer] := by
  simp [process_calls, onset_events, List.filterMap_append, Event.processCall,
    filterMap_reads_none]

theorem reads_onset_events (s : Nat → F32) (n : uint) (next : Addr) :
    reads (onset_events s n next) = List.range n.val := by
  have h := reads_map_read (List.range n.val)
  simp only [reads] at h
  simp [reads, onset_events, List.filterMap_append, Event.readIndex, h]

/-- In a call with a failed allocation the buffer that was allocated, if any,
is released once; the library is not called and nothing is read or written
through `out_bpm`. -/
theorem fail_events_facts (n : uint) (ok1 ok2 : Bool) (next : Addr)
    (h : ¬ (ok1 = true ∧ ok2 = true)) :
    allocated (fail_events n ok1 ok2 next) = (if ok1 || ok2 then [next] else []) ∧
    freed (fail_events n ok1 ok2 next) = (if ok1 || ok2 then [next] else []) ∧
    process_calls (fail_events n ok1 ok2 next) = [] ∧
    reads (fail_events n ok1 ok2 next) = [] ∧
    bpm_writes (fail_events n ok1 ok2 next) = [] := by
  cases ok1 <;> cases ok2 <;>
    simp_all [fail_events, allocated, freed, process_calls, reads, bpm_writes,
      Event.allocAddr, Event.freeAddr, Event.processCall, Event.readIndex, Event.bpmValue]

/-! ## The claims -/

/-- Claim C1. When the handle is null, or the sample pointer is null, or the
count is 0, `wrapper_process_tempo` and `wrapper_process_onset` return 0 and
leave the whole state as it was: the heap, the allocator and its oracle are
untouched and the log gains no step (no allocation, no library process call,
no sample read, no write through `out_bpm`); the tracker or detector and the
content of the BPM destination are unchanged. -/
theorem invalid_arguments_are_a_no_op (L : Aubio) (tempo : Option L.Tempo)
    (onset : Option L.Onset) (samples : Option (Nat → F32)) (n : uint)
    (out_bpm : Option F32) (w : World) :
    (tempo = none ∨ samples = none ∨ n = 0 →
      wrapper_process_tempo L tempo samples n out_bpm w = some ⟨0, tempo, out_bpm, w⟩) ∧
    (onset = none ∨ samples = none ∨ n = 0 →
      wrapper_process_onset L onset samples n w = some ⟨0, onset, w⟩) :=
  ⟨process_tempo_invalid L tempo samples n out_bpm w,
   process_onset_invalid L onset samples n w⟩

/-- A null tracker for the tempo call and a zero count for the onset call. -/
theorem invalid_arguments_are_a_no_op_witness :
    (wrapper_process_tempo echoLib none (some fun _ => F32.one) 2 (some F32.one)
        (emptyWorld [true, true]) =
      some ⟨0, none, some F32.one, emptyWorld [true, true]⟩) ∧
    (wrapper_process_onset echoLib (some (7 : Nat)) (some fun _ => F32.one) 0
        (emptyWorld [true, true]) =
      some ⟨0, some (7 : Nat), emptyWorld [true, true]⟩) :=
  ⟨(invalid_arguments_are_a_no_op echoLib none (some (7 : Nat)) (some fun _ => F32.one) 2
      (some F32.one) (emptyWorld [true, true])).1 (Or.inl rfl),
   (invalid_arguments_are_a_no_op echoLib none (some (7 : Nat)) (some fun _ => F32.one) 0
      (some F32.one) (emptyWorld [true, true])).2 (Or.inr (Or.inr rfl))⟩

/-- Claim C9. For every sample rate `r`, `wrapper_create_tempo_tracker r`
returns what the low-level tempo constructor returns for method "default",
window 1024, hop 512 and rate `r`; in particular it is null exactly when the
library rejects that configuration. -/
theorem create_tempo_tracker_is_default_preset (L : Aubio) (r : uint) :
    wrapper_create_tempo_tracker L r = wrapper_new_aubio_tempo L (some "default") 1024 512 r ∧
    wrapper_create_tempo_tracker L r = L.new_tempo (some "default") 1024 512 r ∧
    (wrapper_create_tempo_tracker L r = none ↔
      L.new_tempo (some "default") 1024 512 r = none) :=
  ⟨rfl, rfl, Iff.rfl⟩

/-- Claim C6, as stated, fails on the empty method string: the wrapper hands
the empty string itself to the library, and a library that accepts only the
documented method names rejects it while it accepts "default". -/
theorem create_onset_detector_empty_method_counterexample :
    wrapper_create_onset_detector echoLib (some "") 44100 = none ∧
    wrapper_new_aubio_onset echoLib (some "default") 1024 512 44100 = some (0 : Nat) ∧
    wrapper_create_onset_detector echoLib (some "") 44100 ≠
      wrapper_new_aubio_onset echoLib (some "default") 1024 512 44100 := by
  have h1 : wrapper_create_onset_detector echoLib (some "") 44100 = none := by
    simp [wrapper_create_onset_detector, new_aubio_onset, echoLib, knownMethods]
  have h2 : wrapper_new_aubio_onset echoLib (some "default") 1024 512 44100 =
      some (0 : Nat) := by
    simp [wrapper_new_aubio_onset, new_aubio_onset, echoLib, knownMethods]
  refine ⟨h1, h2, ?_⟩
  rw [h1, h2]
  exact fun h => Option.noConfusion h

/-- Claim C6, amended. With a null method identifier
`wrapper_create_onset_detector` creates the detector as the low-level onset
constructor does with method "default", window 1024 and hop 512; every
non-null method string, the empty one included, is passed on unchanged with
window 1024 and hop 512. -/
theorem create_onset_detector_preset (L : Aubio) (r : uint) :
    wrapper_create_onset_detector L none r =
      wrapper_new_aubio_onset L (some "default") 1024 512 r ∧
    (∀ m : String, wrapper_create_onset_detector L (some m) r =
      wrapper_new_aubio_onset L (some m) 1024 512 r) ∧
    wrapper_create_onset_detector L (some "") r =
      wrapper_new_aubio_onset L (some "") 1024 512 r :=
  ⟨rfl, fun _ => rfl, rfl⟩

/-- Claim C8. For every length `n`, index `i < n` and sample `v`: on the
buffer `wrapper_new_fvec n` has just created, and on any buffer that is live
with `n` cells, `wrapper_fvec_set_sample` at `i` succeeds and a following
`wrapper_fvec_get_sample` at `i` returns exactly `v`. -/
theorem set_then_get_sample (w : World) (n i : uint) (v : F32) (hi : i < n) :
    (∀ a w1, wrapper_new_fvec n w = (some a, w1) →
      ∃ w2, wrapper_fvec_set_sample (some a) v i w1 = some w2 ∧
        wrapper_fvec_get_sample (some a) i w2 = some v) ∧
    (∀ a b, heap_get a w.live = some b → b.data.length = n.val →
      ∃ w2, wrapper_fvec_set_sample (some a) v i w = some w2 ∧
        wrapper_fvec_get_sample (some a) i w2 = some v) := by
  have hi1 : i.val < n.val := hi
  have gen : ∀ (u : World) (a : Addr) (b : fvec_t), heap_get a u.live = some b →
      b.data.length = n.val →
      ∃ w2, wrapper_fvec_set_sample (some a) v i u = some w2 ∧
        wrapper_fvec_get_sample (some a) i w2 = some v := by
    intro u a b hlive hlen
    have hi2 : i.val < b.data.length := by omega
    obtain ⟨l2, h1, h2⟩ := heap_set_get a b { b with data := b.data.set i.val v } u.live hlive
    refine ⟨{ u with live := l2 }, ?_, ?_⟩
    · simp [wrapper_fvec_set_sample, fvec_set_sample, hlive, hi2, h1]
    · simp [wrapper_fvec_get_sample, fvec_get_sample, h2, hi2]
  refine ⟨?_, gen w⟩
  intro a w1 hnew
  by_cases hg : granted w.oracle = true
  · simp only [wrapper_new_fvec, new_fvec, hg, if_true, Prod.mk.injEq, Option.some.injEq] at hnew
    obtain ⟨ha, hw⟩ := hnew
    subst hw
    exact gen _ a ⟨n, List.replicate n.val F32.zero⟩ (by simp [heap_get, ha]) (by simp)
  · simp [wrapper_new_fvec, new_fvec, hg] at hnew

/-- The buffer of three cells created in an empty world: storing -1.0 in the
last cell and reading it back. -/
theorem set_then_get_sample_witness :
    (wrapper_new_fvec 3 (emptyWorld [true])).1 = some 1 ∧
    (∃ w2, wrapper_fvec_set_sample (some 1) F32.negOne 2
        (wrapper_new_fvec 3 (emptyWorld [true])).2 = some w2 ∧
      wrapper_fvec_get_sample (some 1) 2 w2 = some F32.negOne) :=
  ⟨by decide,
   (set_then_get_sample (emptyWorld [true]) 3 2 F32.negOne (by decide)).1 1
     (wrapper_new_fvec 3 (emptyWorld [true])).2 (by decide)⟩

/-- Claim C7. For every input, every allocation outcome and every value the
library writes into the output vector, `wrapper_process_tempo` and
`wrapper_process_onset` return, and the returned value is 0 or 1. -/
theorem process_returns_zero_or_one (L : Aubio) (tempo : Option L.Tempo)
    (onset : Option L.Onset) (samples : Option (Nat → F32)) (n : uint)
    (out_bpm : Option F32) (w : World) :
    (∃ r, wrapper_process_tempo L tempo samples n out_bpm w = some r ∧
      (r.ret = 0 ∨ r.ret = 1)) ∧
    (∃ r, wrapper_process_onset L onset samples n w = some r ∧
      (r.ret = 0 ∨ r.ret = 1)) := by
  constructor
  · obtain ⟨r, es, hr, -, -, h⟩ := process_tempo_shape L tempo samples n out_bpm w
    refine ⟨r, hr, ?_⟩
    rcases h with ⟨-, h0⟩ | ⟨-, -, h0⟩ | ⟨t, s, -, -, -, h01⟩
    · exact Or.inl h0
    · exact Or.inl h0
    · exact h01
  · obtain ⟨r, es, hr, -, -, h⟩ := process_onset_shape L onset samples n w
    refine ⟨r, hr, ?_⟩
    rcases h with ⟨-, h0⟩ | ⟨-, -, h0⟩ | ⟨s, -, -, h01⟩
    · exact Or.inl h0
    · exact Or.inl h0
    · exact h01

/-- Claim C2. For every input and every combination of allocation outcomes,
`wrapper_process_tempo` and `wrapper_process_onset` return with the set of
live buffers equal to the one before the call; the addresses released during
the call are exactly the addresses allocated during it, none twice, so every
temporary buffer is released exactly once. When exactly one of the two
allocations succeeds (the arguments being valid), that one buffer is
allocated and released. -/
theorem temporaries_released_exactly_once (L : Aubio) (tempo : Option L.Tempo)
    (onset : Option L.Onset) (samples : Option (Nat → F32)) (n : uint)
    (out_bpm : Option F32) (w : World) :
    (∃ r es, wrapper_process_tempo L tempo samples n out_bpm w = some r ∧
      r.world.live = w.live ∧ r.world.trace = w.trace ++ es ∧
      freed es = allocated es ∧ (allocated es).Nodup ∧
      (∀ a, a ∈ allocated es → (freed es).count a = 1) ∧
      (tempo ≠ none → samples ≠ none → n ≠ 0 →
        ((new_fvec n w).1 = none ↔ (new_fvec 1 (new_fvec n w).2).1 ≠ none) →
        allocated es = [w.next] ∧ freed es = [w.next])) ∧
    (∃ r es, wrapper_process_onset L onset samples n w = some r ∧
      r.world.live = w.live ∧ r.world.trace = w.trace ++ es ∧
      freed es = allocated es ∧ (allocated es).Nodup ∧
      (∀ a, a ∈ allocated es → (freed es).count a = 1) ∧
      (onset ≠ none → samples ≠ none → n ≠ 0 →
        ((new_fvec n w).1 = none ↔ (new_fvec 1 (new_fvec n w).2).1 ≠ none) →
        allocated es = [w.next] ∧ freed es = [w.next])) := by
  have key : ∀ es : List Event,
      (es = [] ∨
       (¬ (granted w.oracle = true ∧ granted w.oracle.tail = true) ∧
         es = fail_events n (granted w.oracle) (granted w.oracle.tail) w.next) ∨
       (allocated es = [w.next, w.next + 1] ∧ freed es = [w.next, w.next + 1])) →
      freed es = allocated es ∧ (allocated es).Nodup ∧
      (∀ a, a ∈ allocated es → (freed es).count a = 1) := by
    intro es h
    have h2 : freed es = allocated es ∧ (allocated es).Nodup := by
      rcases h with rfl | ⟨hg, rfl⟩ | ⟨ha, hf⟩
      · simp [freed, allocated]
      · obtain ⟨ha, hf, -⟩ := fail_events_facts n _ _ w.next hg
        rw [ha, hf]
        refine ⟨rfl, ?_⟩
        split <;> simp
      · rw [ha, hf]
        exact ⟨rfl, by simp⟩
    refine ⟨h2.1, h2.2, fun a ha => ?_⟩
    rw [h2.1]
    exact List.count_eq_one_of_mem h2.2 ha
  have one : ∀ es : List Event, n ≠ 0 →
      ((new_fvec n w).1 = none ↔ (new_fvec 1 (new_fvec n w).2).1 ≠ none) →
      ((es = [] ∧ n = 0) ∨
       (¬ (granted w.oracle = true ∧ granted w.oracle.tail = true) ∧
         es = fail_events n (granted w.oracle) (granted w.oracle.tail) w.next) ∨
       (granted w.oracle = true ∧ granted w.oracle.tail = true)) →
      allocated es = [w.next] ∧ freed es = [w.next] := by
    intro es hn hx h
    have f1 := new_fvec_fst n w
    have f2 := new_fvec_snd n 1 w
    rcases h with ⟨-, h0⟩ | ⟨hg, rfl⟩ | ⟨g1, g2⟩
    · exact absurd h0 hn
    · obtain ⟨ha, hf, -⟩ := fail_events_facts n _ _ w.next hg
      rw [ha, hf]
      have : (granted w.oracle || granted w.oracle.tail) = true := by
        by_cases g1 : granted w.oracle = true
        · simp [g1]
        · have : (new_fvec n w).1 = none := by
            by_contra hc
            exact g1 (f1.mp hc)
          have := f2.mp (hx.mp this)
          simp [this]
      simp [this]
    · have a1 := f1.mpr g1
      have a2 := f2.mpr g2
      exact absurd (hx.mpr a2) a1
  constructor
  · by_cases hinv : tempo = none ∨ samples = none ∨ n = 0
    · refine ⟨_, [], process_tempo_invalid L tempo samples n out_bpm w hinv, rfl,
        by simp, (key [] (Or.inl rfl)).1, (key [] (Or.inl rfl)).2.1,
        (key [] (Or.inl rfl)).2.2, ?_⟩
      intro ht hs hn
      rcases hinv with h | h | h
      · exact absurd h ht
      · exact absurd h hs
      · exact absurd h hn
    · simp only [not_or] at hinv
      obtain ⟨ht, hs, hn⟩ := hinv
      obtain ⟨t, rfl⟩ := Option.ne_none_iff_exists'.mp ht
      obtain ⟨s, rfl⟩ := Option.ne_none_iff_exists'.mp hs
      by_cases hg : granted w.oracle = true ∧ granted w.oracle.tail = true
      · have hk := key (tempo_events L t s n out_bpm w.next)
          (Or.inr (Or.inr ⟨allocated_tempo_events L t s n out_bpm w.next,
            freed_tempo_events L t s n out_bpm w.next⟩))
        exact ⟨_, _, process_tempo_valid L t s n out_bpm w hn hg.1 hg.2, rfl, rfl,
          hk.1, hk.2.1, hk.2.2, fun _ _ _ hx => one _ hn hx (Or.inr (Or.inr hg))⟩
      · have hk := key (fail_events n (granted w.oracle) (granted w.oracle.tail) w.next)
          (Or.inr (Or.inl ⟨hg, rfl⟩))
        exact ⟨_, _, process_tempo_fail L t s n out_bpm w hn hg, rfl, rfl,
          hk.1, hk.2.1, hk.2.2, fun _ _ _ hx => one _ hn hx (Or.inr (Or.inl ⟨hg, rfl⟩))⟩
  · by_cases hinv : onset = none ∨ samples = none ∨ n = 0
    · refine ⟨_, [], process_onset_invalid L onset samples n w hinv, rfl,
        by simp, (key [] (Or.inl rfl)).1, (key [] (Or.inl rfl)).2.1,
        (key [] (Or.inl rfl)).2.2, ?_⟩
      intro ht hs hn
      rcases hinv with h | h | h
      · exact absurd h ht
      · exact absurd h hs
      · exact absurd h hn
    · simp only [not_or] at hinv
      obtain ⟨ht, hs, hn⟩ := hinv
      obtain ⟨t, rfl⟩ := Option.ne_none_iff_exists'.mp ht
      obtain ⟨s, rfl⟩ := Option.ne_none_iff_exists'.mp hs
      by_cases hg : granted w.oracle = true ∧ granted w.oracle.tail = true
      · have hk := key (onset_events s n w.next)
          (Or.inr (Or.inr ⟨allocated_onset_events s n w.next,
            freed_onset_events s n w.next⟩))
        exact ⟨_, _, process_onset_valid L t s n w hn hg.1 hg.2, rfl, rfl,
          hk.1, hk.2.1, hk.2.2, fun _ _ _ hx => one _ hn hx (Or.inr (Or.inr hg))⟩
      · have hk := key (fail_events n (granted w.oracle) (granted w.oracle.tail) w.next)
          (Or.inr (Or.inl ⟨hg, rfl⟩))
        exact ⟨_, _, process_onset_fail L t s n w hn hg, rfl, rfl,
          hk.1, hk.2.1, hk.2.2, fun _ _ _ hx => one _ hn hx (Or.inr (Or.inl ⟨hg, rfl⟩))⟩

/-- The partial failure: the input buffer is allocated at address 1, the output
allocation fails, and address 1 is released. -/
theorem temporaries_released_exactly_once_witness :
    ∃ r es, wrapper_process_tempo echoLib (some (0 : Nat)) (some fun _ => F32.one) 2 none
        (emptyWorld [true, false]) = some r ∧
      r.world.live = [] ∧ r.world.trace = es ∧ allocated es = [1] ∧ freed es = [1] := by
  obtain ⟨r, es, h1, h2, h3, -, -, -, h7⟩ :=
    (temporaries_released_exactly_once echoLib (some (0 : Nat)) (some (0 : Nat))
      (some fun _ => F32.one) 2 none (emptyWorld [true, false])).1
  have h8 := h7 (by simp) (by simp) (by decide) (by decide)
  exact ⟨r, es, h1, h2, by simpa [emptyWorld] using h3, h8.1, h8.2⟩

/-- Claim C3. With a non-null handle, a non-null sample pointer and a count
above 0, if the allocation of the input buffer or of the output buffer
returns null, then `wrapper_process_tempo` and `wrapper_process_onset` return
0, the library process operation is not called and the tracker or detector
is unchanged, and for `wrapper_process_tempo` nothing is written through
`out_bpm`, whose content stays as it was. -/
theorem allocation_failure_returns_zero (L : Aubio) (t : L.Tempo) (o : L.Onset)
    (s : Nat → F32) (n : uint) (out_bpm : Option F32) (w : World) (hn : n ≠ 0)
    (hfail : (new_fvec n w).1 = none ∨ (new_fvec 1 (new_fvec n w).2).1 = none) :
    (∃ r es, wrapper_process_tempo L (some t) (some s) n out_bpm w = some r ∧
      r.ret = 0 ∧ r.tempo = some t ∧ r.bpm = out_bpm ∧
      r.world.trace = w.trace ++ es ∧ process_calls es = [] ∧ bpm_writes es = []) ∧
    (∃ r es, wrapper_process_onset L (some o) (some s) n w = some r ∧
      r.ret = 0 ∧ r.onset = some o ∧
      r.world.trace = w.trace ++ es ∧ process_calls es = []) := by
  have hg : ¬ (granted w.oracle = true ∧ granted w.oracle.tail = true) := by
    rintro ⟨g1, g2⟩
    rcases hfail with h | h
    · exact (new_fvec_fst n w).mpr g1 h
    · exact (new_fvec_snd n 1 w).mpr g2 h
  obtain ⟨-, -, hp, -, hb⟩ := fail_events_facts n _ _ w.next hg
  exact ⟨⟨_, _, process_tempo_fail L t s n out_bpm w hn hg, rfl, rfl, rfl, rfl, hp, hb⟩,
    ⟨_, _, process_onset_fail L o s n w hn hg, rfl, rfl, rfl, hp⟩⟩

/-- The first allocation fails and the second succeeds. -/
theorem allocation_failure_returns_zero_witness :
    (∃ r es, wrapper_process_tempo echoLib (some (5 : Nat)) (some fun _ => F32.one) 2
        (some F32.negOne) (emptyWorld [false, true]) = some r ∧
      r.ret = 0 ∧ r.tempo = some (5 : Nat) ∧ r.bpm = some F32.negOne ∧
      r.world.trace = (emptyWorld [false, true]).trace ++ es ∧
      process_calls es = [] ∧ bpm_writes es = []) ∧
    (∃ r es, wrapper_process_onset echoLib (some (6 : Nat)) (some fun _ => F32.one) 2
        (emptyWorld [false, true]) = some r ∧
      r.ret = 0 ∧ r.onset = some (6 : Nat) ∧
      r.world.trace = (emptyWorld [false, true]).trace ++ es ∧ process_calls es = []) :=
  allocation_failure_returns_zero echoLib (5 : Nat) (6 : Nat) (fun _ => F32.one) 2
    (some F32.negOne) (emptyWorld [false, true]) (by decide) (Or.inl (by decide))

/-- Claim C4, as stated, fails when the library writes a negative sample:
the sample -1.0 is non-zero, yet both functions return 0. -/
theorem negative_sample_counterexample :
    (∃ r, wrapper_process_tempo echoLib (some (0 : Nat)) (some fun _ => F32.negOne) 1 none
        (emptyWorld [true, true]) = some r ∧
      (echoLib.tempo_do (0 : Nat) (input_buffer (fun _ => F32.negOne) 1) output_buffer).2.data
        = [F32.negOne] ∧
      F32.negOne.neZero = true ∧ r.ret = 0 ∧
      ¬ (r.ret = 1 ↔ F32.negOne.neZero = true)) ∧
    (∃ r, wrapper_process_onset echoLib (some (0 : Nat)) (some fun _ => F32.negOne) 1
        (emptyWorld [true, true]) = some r ∧
      (echoLib.onset_do (0 : Nat) (input_buffer (fun _ => F32.negOne) 1) output_buffer).2.data
        = [F32.negOne] ∧
      F32.negOne.neZero = true ∧ r.ret = 0 ∧
      ¬ (r.ret = 1 ↔ F32.negOne.neZero = true)) := by
  have hd : (echoLib.tempo_do (0 : Nat) (input_buffer (fun _ => F32.negOne) 1)
      output_buffer).2.data = [F32.negOne] := by decide
  have hd2 : (echoLib.onset_do (0 : Nat) (input_buffer (fun _ => F32.negOne) 1)
      output_buffer).2.data = [F32.negOne] := by decide
  have hz : F32.negOne.neZero = true := by decide
  have hgt : F32.negOne.gtZero = false := by decide
  constructor
  · refine ⟨_, process_tempo_valid echoLib (0 : Nat) (fun _ => F32.negOne) 1 none
      (emptyWorld [true, true]) (by decide) (by decide) (by decide), hd, hz, ?_, ?_⟩
    · simp [out_sample, hd, hgt]
    · simp [out_sample, hd, hgt, hz]
  · refine ⟨_, process_onset_valid echoLib (0 : Nat) (fun _ => F32.negOne) 1
      (emptyWorld [true, true]) (by decide) (by decide) (by decide), hd2, hz, ?_, ?_⟩
    · simp [out_sample, hd2, hgt]
    · simp [out_sample, hd2, hgt, hz]

theorem flag_of_sample (x : F32) (ret : Int) (h : ret = if x.gtZero = true then 1 else 0) :
    (ret = 1 ↔ x.gtZero = true) ∧ (ret = 0 ↔ x.gtZero = false) ∧
    (x.sign = false → x.isNaN = false → (ret = 1 ↔ x.neZero = true)) := by
  subst h
  refine ⟨?_, ?_, ?_⟩
  · by_cases hx : x.gtZero = true <;> simp [hx]
  · by_cases hx : x.gtZero = true <;> simp [hx]
  · intro hs hnan
    by_cases hz : x.isZero = true <;> simp [F32.gtZero, F32.neZero, hs, hnan, hz]

/-- Claim C4, amended. On every valid call (non-null handle, non-null
samples, count above 0, both allocations succeed) the library process
operation is called once on the input vector holding the samples and on the
zeroed one-cell output vector, and `wrapper_process_tempo` returns 1 exactly
when the single sample `x` the tracker wrote into the output vector
satisfies `x > 0` and 0 otherwise (so 0 for a negative sample and for NaN);
when `x` is neither negative nor NaN this is the same as `x` being non-zero.
`wrapper_process_onset` relates its result to the sample of the detector in
the same way. -/
theorem process_returns_positive_flag (L : Aubio) (t : L.Tempo) (o : L.Onset)
    (s : Nat → F32) (n : uint) (out_bpm : Option F32) (w : World) (hn : n ≠ 0)
    (h1 : (new_fvec n w).1 ≠ none) (h2 : (new_fvec 1 (new_fvec n w).2).1 ≠ none) :
    (∃ r es x, wrapper_process_tempo L (some t) (some s) n out_bpm w = some r ∧
      r.world.trace = w.trace ++ es ∧
      process_calls es = [Event.process w.next (w.next + 1) (input_buffer s n) output_buffer] ∧
      (L.tempo_do t (input_buffer s n) output_buffer).2.data = [x] ∧
      (r.ret = 1 ↔ x.gtZero = true) ∧ (r.ret = 0 ↔ x.gtZero = false) ∧
      (x.sign = false → x.isNaN = false → (r.ret = 1 ↔ x.neZero = true))) ∧
    (∃ r es x, wrapper_process_onset L (some o) (some s) n w = some r ∧
      r.world.trace = w.trace ++ es ∧
      process_calls es = [Event.process w.next (w.next + 1) (input_buffer s n) output_buffer] ∧
      (L.onset_do o (input_buffer s n) output_buffer).2.data = [x] ∧
      (r.ret = 1 ↔ x.gtZero = true) ∧ (r.ret = 0 ↔ x.gtZero = false) ∧
      (x.sign = false → x.isNaN = false → (r.ret = 1 ↔ x.neZero = true))) := by
  have g1 := (new_fvec_fst n w).mp h1
  have g2 := (new_fvec_snd n 1 w).mp h2
  constructor
  · have hf := flag_of_sample (out_sample (L.tempo_do t (input_buffer s n) output_buffer).2)
      _ rfl
    exact ⟨_, _, _, process_tempo_valid L t s n out_bpm w hn g1 g2, rfl,
      process_calls_tempo_events L t s n out_bpm w.next,
      out_shape _ (L.tempo_do_shape t (input_buffer s n) output_buffer), hf.1, hf.2.1, hf.2.2⟩
  · have hf := flag_of_sample (out_sample (L.onset_do o (input_buffer s n) output_buffer).2)
      _ rfl
    exact ⟨_, _, _, process_onset_valid L o s n w hn g1 g2, rfl,
      process_calls_onset_events s n w.next,
      out_shape _ (L.onset_do_shape o (input_buffer s n) output_buffer), hf.1, hf.2.1, hf.2.2⟩

/-- A valid call on two samples of value 1.0. -/
theorem process_returns_positive_flag_witness :
    (∃ r es x, wrapper_process_tempo echoLib (some (0 : Nat)) (some fun _ => F32.one) 2
        (some F32.zero) (emptyWorld [true, true]) = some r ∧
      r.world.trace = (emptyWorld [true, true]).trace ++ es ∧
      process_calls es = [Event.process (emptyWorld [true, true]).next
        ((emptyWorld [true, true]).next + 1) (input_buffer (fun _ => F32.one) 2)
        output_buffer] ∧
      (echoLib.tempo_do (0 : Nat) (input_buffer (fun _ => F32.one) 2) output_buffer).2.data
        = [x] ∧
      (r.ret = 1 ↔ x.gtZero = true) ∧ (r.ret = 0 ↔ x.gtZero = false) ∧
      (x.sign = false → x.isNaN = false → (r.ret = 1 ↔ x.neZero = true))) ∧
    (∃ r es x, wrapper_process_onset echoLib (some (0 : Nat)) (some fun _ => F32.one) 2
        (emptyWorld [true, true]) = some r ∧
      r.world.trace = (emptyWorld [true, true]).trace ++ es ∧
      process_calls es = [Event.process (emptyWorld [true, true]).next
        ((emptyWorld [true, true]).next + 1) (input_buffer (fun _ => F32.one) 2)
        output_buffer] ∧
      (echoLib.onset_do (0 : Nat) (input_buffer (fun _ => F32.one) 2) output_buffer).2.data
        = [x] ∧
      (r.ret = 1 ↔ x.gtZero = true) ∧ (r.ret = 0 ↔ x.gtZero = false) ∧
      (x.sign = false → x.isNaN = false → (r.ret = 1 ↔ x.neZero = true))) :=
  process_returns_positive_flag echoLib (0 : Nat) (0 : Nat) (fun _ => F32.one) 2
    (some F32.zero) (emptyWorld [true, true]) (by decide) (by decide) (by decide)

/-- Claim C5. On every valid call of `wrapper_process_tempo`: with a non-null
BPM destination, the destination holds after the call exactly the BPM the
library reports for the tracker as this call's process step left it, and
that is the only write through `out_bpm`; with a null destination nothing is
written, and the returned flag is the one returned with a destination. -/
theorem bpm_destination_written_when_provided (L : Aubio) (t : L.Tempo) (s : Nat → F32)
    (n : uint) (w : World) (hn : n ≠ 0)
    (h1 : (new_fvec n w).1 ≠ none) (h2 : (new_fvec 1 (new_fvec n w).2).1 ≠ none) :
    (∀ v : F32, ∃ r es t2,
      wrapper_process_tempo L (some t) (some s) n (some v) w = some r ∧
      t2 = (L.tempo_do t (input_buffer s n) output_buffer).1 ∧
      r.tempo = some t2 ∧ r.bpm = some (aubio_tempo_get_bpm L t2) ∧
      r.world.trace = w.trace ++ es ∧ bpm_writes es = [aubio_tempo_get_bpm L t2]) ∧
    (∃ r es, wrapper_process_tempo L (some t) (some s) n none w = some r ∧
      r.bpm = none ∧ r.world.trace = w.trace ++ es ∧ bpm_writes es = [] ∧
      ∀ v : F32, ∃ r2, wrapper_process_tempo L (some t) (some s) n (some v) w = some r2 ∧
        r2.ret = r.ret) := by
  have g1 := (new_fvec_fst n w).mp h1
  have g2 := (new_fvec_snd n 1 w).mp h2
  constructor
  · intro v
    exact ⟨_, _, _, process_tempo_valid L t s n (some v) w hn g1 g2, rfl, rfl, rfl, rfl,
      bpm_writes_tempo_events L t s n (some v) w.next⟩
  · exact ⟨_, _, process_tempo_valid L t s n none w hn g1 g2, rfl, rfl,
      bpm_writes_tempo_events L t s n none w.next,
      fun v => ⟨_, process_tempo_valid L t s n (some v) w hn g1 g2, rfl⟩⟩

/-- A valid call on two samples with a tracker that has processed three hops. -/
theorem bpm_destination_written_when_provided_witness :
    (∀ v : F32, ∃ r es t2,
      wrapper_process_tempo echoLib (some (3 : Nat)) (some fun _ => F32.one) 2 (some v)
        (emptyWorld [true, true]) = some r ∧
      t2 = (echoLib.tempo_do (3 : Nat) (input_buffer (fun _ => F32.one) 2) output_buffer).1 ∧
      r.tempo = some t2 ∧ r.bpm = some (aubio_tempo_get_bpm echoLib t2) ∧
      r.world.trace = (emptyWorld [true, true]).trace ++ es ∧
      bpm_writes es = [aubio_tempo_get_bpm echoLib t2]) ∧
    (∃ r es, wrapper_process_tempo echoLib (some (3 : Nat)) (some fun _ => F32.one) 2 none
        (emptyWorld [true, true]) = some r ∧
      r.bpm = none ∧ r.world.trace = (emptyWorld [true, true]).trace ++ es ∧
      bpm_writes es = [] ∧
      ∀ v : F32, ∃ r2, wrapper_process_tempo echoLib (some (3 : Nat)) (some fun _ => F32.one)
        2 (some v) (emptyWorld [true, true]) = some r2 ∧ r2.ret = r.ret) :=
  bpm_destination_written_when_provided echoLib (3 : Nat) (fun _ => F32.one) 2
    (emptyWorld [true, true]) (by decide) (by decide) (by decide)

/-- Claim C10. On every valid call with count `n > 0` of
`wrapper_process_tempo` or `wrapper_process_onset` the copy loop terminates
(the call returns), it reads the samples at the indices `0, ..., n-1` in
order, and the library process operation is called exactly once, whatever the
library instance and its configured hop size, with an input vector of length
`n` that holds `samples[i]` at every index `i < n` and with a one-cell
output vector. -/
theorem process_called_once_with_copied_samples (L : Aubio) (t : L.Tempo) (o : L.Onset)
    (s : Nat → F32) (n : uint) (out_bpm : Option F32) (w : World) (hn : 0 < n)
    (h1 : (new_fvec n w).1 ≠ none) (h2 : (new_fvec 1 (new_fvec n w).2).1 ≠ none) :
    (∃ r es a b ib ob, wrapper_process_tempo L (some t) (some s) n out_bpm w = some r ∧
      r.world.trace = w.trace ++ es ∧ reads es = List.range n.val ∧
      process_calls es = [Event.process a b ib ob] ∧
      ib.length = n ∧ ib.data.length = n.val ∧
      (∀ i, i < n.val → ib.data[i]? = some (s i)) ∧
      ob.length = 1 ∧ ob.data.length = 1) ∧
    (∃ r es a b ib ob, wrapper_process_onset L (some o) (some s) n w = some r ∧
      r.world.trace = w.trace ++ es ∧ reads es = List.range n.val ∧
      process_calls es = [Event.process a b ib ob] ∧
      ib.length = n ∧ ib.data.length = n.val ∧
      (∀ i, i < n.val → ib.data[i]? = some (s i)) ∧
      ob.length = 1 ∧ ob.data.length = 1) := by
  have g1 := (new_fvec_fst n w).mp h1
  have g2 := (new_fvec_snd n 1 w).mp h2
  have hn0 : n ≠ 0 := fun h => by
    rw [h] at hn
    exact absurd hn (by decide)
  have hib : ∀ i, i < n.val → (input_buffer s n).data[i]? = some (s i) := by
    intro i hi
    simp [input_buffer, hi]
  have hlen : (input_buffer s n).data.length = n.val := by simp [input_buffer]
  exact ⟨⟨_, _, _, _, _, _, process_tempo_valid L t s n out_bpm w hn0 g1 g2, rfl,
      reads_tempo_events L t s n out_bpm w.next,
      process_calls_tempo_events L t s n out_bpm w.next, rfl, hlen, hib, rfl, rfl⟩,
    ⟨_, _, _, _, _, _, process_onset_valid L o s n w hn0 g1 g2, rfl,
      reads_onset_events s n w.next,
      process_calls_onset_events s n w.next, rfl, hlen, hib, rfl, rfl⟩⟩

/-- A valid call on three pairwise different samples. -/
theorem process_called_once_with_copied_samples_witness :
    (∃ r es a b ib ob, wrapper_process_tempo echoLib (some (0 : Nat))
        (some fun i => ⟨false, 127, Fin.ofNat i⟩) 3 none (emptyWorld [true, true]) = some r ∧
      r.world.trace = (emptyWorld [true, true]).trace ++ es ∧
      reads es = List.range (3 : uint).val ∧
      process_calls es = [Event.process a b ib ob] ∧
      ib.length = 3 ∧ ib.data.length = (3 : uint).val ∧
      (∀ i, i < (3 : uint).val → ib.data[i]? = some (⟨false, 127, Fin.ofNat i⟩ : F32)) ∧
      ob.length = 1 ∧ ob.data.length = 1) ∧
    (∃ r es a b ib ob, wrapper_process_onset echoLib (some (0 : Nat))
        (some fun i => ⟨false, 127, Fin.ofNat i⟩) 3 (emptyWorld [true, true]) = some r ∧
      r.world.trace = (emptyWorld [true, true]).trace ++ es ∧
      reads es = List.range (3 : uint).val ∧
      process_calls es = [Event.process a b ib ob] ∧
      ib.length = 3 ∧ ib.data.length = (3 : uint).val ∧
      (∀ i, i < (3 : uint).val → ib.data[i]? = some (⟨false, 127, Fin.ofNat i⟩ : F32)) ∧
      ob.length = 1 ∧ ob.data.length = 1) :=
  process_called_once_with_copied_samples echoLib (0 : Nat) (0 : Nat)
    (fun i => ⟨false, 127, Fin.ofNat i⟩) 3 none (emptyWorld [true, true])
    (by decide) (by decide) (by decide)

end Pulsar
